import Mathlib

/-!
Verification of the Honeypot Orchestration Layer (`honeypots/manager.py`,
class `HoneypotManager`) of the AI-Based HoneyPot System repository.

The manager keeps two pieces of state that matter to the properties below:
`self.honeypots`, an insertion-ordered dict from instance id to a live
decoy-service handle, and `self.config`, whose `'honeypots'` entry is the
ordered list of declarative instance definitions.  Python dicts are embedded
as association lists together with dict-faithful get/set/delete operations,
and the orchestrator's methods are embedded as pure state transformers that
additionally accumulate the log lines the code emits (level and message),
so that "logs a warning, not an error" style statements are provable.

The concrete decoy-service classes (`SSHHoneypot`, `WebHoneypot`, base class)
and the YAML library are collaborators that are not part of the analysed
sources; they are modelled from the spec where indicated.
-/

namespace Honeypots

/-- Log severity used by the manager (`logger.info` / `logger.warning` /
`logger.error`). -/
inductive LogLevel where
  | info
  | warning
  | error
deriving DecidableEq, Repr

/-- Lifecycle state of a decoy instance; the code stores it as the string
field `status` with values `"Inactive"` / `"Active"`. -/
inductive Status where
  | Inactive
  | Active
deriving DecidableEq, Repr

/-- Which decoy-service class was instantiated (`SSHHoneypot` or
`WebHoneypot`). -/
inductive HKind where
  | SSH
  | Web
deriving DecidableEq, Repr

/-- A declarative instance definition: one record of the
`config['honeypots']` list, with fields `id`, `type`, `ip`, `port`,
`options`. -/
structure InstanceDefinition where
  id : String
  type : String
  ip : String
  port : Nat
  options : List (String × String)
deriving DecidableEq, Repr

/-- Modelled from the spec: the decoy-service handle (classes `SSHHoneypot`,
`WebHoneypot` and their base class are not among the analysed sources).  The
constructor receives id, bind address, port and options; the handle carries a
lifecycle `status` that starts `Inactive` and is flipped by start/stop. -/
structure BaseHoneypot where
  kind : HKind
  id : String
  ip : String
  port : Nat
  options : List (String × String)
  status : Status
deriving DecidableEq, Repr

/-- State of a `HoneypotManager`: the registry dict `honeypots`, the
`'honeypots'` list of `config`, the `running` flag, and the accumulated log. -/
structure Manager where
  honeypots : List (String × BaseHoneypot)
  config : List InstanceDefinition
  running : Bool
  log : List (LogLevel × String)
deriving DecidableEq, Repr

/-- Python dict read `d.get(k)` / `d[k]`: first (unique) binding of the key. -/
def dictGet {α : Type} (l : List (String × α)) (k : String) : Option α :=
  match l with
  | [] => none
  | (k', v) :: rest => if k' = k then some v else dictGet rest k

/-- Python dict write `d[k] = v`: replace the binding in place if the key is
present, otherwise append a new binding at the end (insertion order). -/
def dictSet {α : Type} (l : List (String × α)) (k : String) (v : α) :
    List (String × α) :=
  match l with
  | [] => [(k, v)]
  | (k', v') :: rest =>
      if k' = k then (k, v) :: rest else (k', v') :: dictSet rest k v

/-- Python dict delete `del d[k]`: drop the (first) binding of the key. -/
def dictDel {α : Type} (l : List (String × α)) (k : String) :
    List (String × α) :=
  match l with
  | [] => []
  | (k', v') :: rest =>
      if k' = k then rest else (k', v') :: dictDel rest k

/-- Python `str.upper()` as used on the ASCII type tags compared against
`'SSH'` and `'WEB'`: upper-case every character. -/
def pyUpper (s : String) : String :=
  String.mk (s.data.map Char.toUpper)

/-- Built-in default definition set installed by `__init__` when no
configuration file is given or the given path does not exist: one SSH decoy
on port 2222 and one Web decoy on port 8080 (the ports the repository's
attack-simulator instructions target). -/
def default_config : List InstanceDefinition :=
  [ { id := "ssh-honeypot-1", type := "SSH", ip := "0.0.0.0", port := 2222,
      options := [("banner", "SSH-2.0-OpenSSH_8.2p1 Ubuntu-4ubuntu0.5")] },
    { id := "web-honeypot-1", type := "Web", ip := "0.0.0.0", port := 8080,
      options := [("server_type", "Apache/2.4.41 (Ubuntu)")] } ]

/-- Modelled from the spec: token of the serialized configuration document.
The YAML library used by `load_config`/`save_config` is an external
collaborator; the document is embedded as a token stream. -/
inductive YTok where
  | nat (n : Nat)
  | str (s : String)
deriving DecidableEq, Repr

/-- Modelled from the spec: serialization of an options mapping. -/
def dumpOptions : List (String × String) → List YTok
  | [] => []
  | (k, v) :: rest => YTok.str k :: YTok.str v :: dumpOptions rest

/-- Modelled from the spec: serialization of one instance definition
(fields `id`, `type`, `ip`, `port`, `options`). -/
def dumpDef (d : InstanceDefinition) : List YTok :=
  YTok.str d.id :: YTok.str d.type :: YTok.str d.ip :: YTok.nat d.port ::
    YTok.nat d.options.length :: dumpOptions d.options

/-- Modelled from the spec: serialization of an ordered definition list. -/
def dumpDefs : List InstanceDefinition → List YTok
  | [] => []
  | d :: rest => dumpDef d ++ dumpDefs rest

/-- Modelled from the spec: `yaml.dump` of the configuration — a document
holding the ordered sequence of definition records. -/
def yaml_dump (cfg : List InstanceDefinition) : List YTok :=
  YTok.nat cfg.length :: dumpDefs cfg

/-- Modelled from the spec: parser for a counted options mapping. -/
def parseOptions : Nat → List YTok → Option (List (String × String) × List YTok)
  | 0, ts => some ([], ts)
  | n + 1, YTok.str k :: YTok.str v :: ts =>
      match parseOptions n ts with
      | some (os, r) => some ((k, v) :: os, r)
      | none => none
  | _ + 1, _ => none

/-- Modelled from the spec: parser for one instance definition record. -/
def parseDef : List YTok → Option (InstanceDefinition × List YTok)
  | YTok.str i :: YTok.str t :: YTok.str ip :: YTok.nat p :: YTok.nat n :: ts =>
      match parseOptions n ts with
      | some (os, r) =>
          some ({ id := i, type := t, ip := ip, port := p, options := os }, r)
      | none => none
  | _ => none

/-- Modelled from the spec: parser for a counted definition sequence. -/
def parseDefs : Nat → List YTok → Option (List InstanceDefinition × List YTok)
  | 0, ts => some ([], ts)
  | n + 1, ts =>
      match parseDef ts with
      | some (d, r) =>
          match parseDefs n r with
          | some (ds, r') => some (d :: ds, r')
          | none => none
      | none => none

/-- Modelled from the spec: `yaml.safe_load` of a configuration document;
malformed input fails with a parse error. -/
def yaml_safe_load (doc : List YTok) : Except String (List InstanceDefinition) :=
  match doc with
  | YTok.nat n :: ts =>
      match parseDefs n ts with
      | some (ds, []) => Except.ok ds
      | _ => Except.error "ConfigParseError"
  | _ => Except.error "ConfigParseError"

/-- `HoneypotManager.load_config`: parse the document and install the result
as the configuration; on any failure log an error and fall back to
`self.config = {'honeypots': []}` — the empty definition set. -/
def Manager.load_config (m : Manager) (doc : List YTok) : Manager :=
  match yaml_safe_load doc with
  | Except.ok cfg =>
      { m with config := cfg,
               log := m.log ++ [(LogLevel.info, "Configuration loaded")] }
  | Except.error e =>
      { m with config := [],
               log := m.log ++
                 [(LogLevel.error, "Failed to load configuration: " ++ e)] }

/-- `HoneypotManager.save_config`: serialize the current configuration (the
write of the produced document to disk is the external I/O boundary). -/
def Manager.save_config (m : Manager) : List YTok :=
  yaml_dump m.config

/-- `HoneypotManager.__init__`: empty registry, `running = False`; if a
configuration source is supplied and exists it is loaded via `load_config`,
otherwise the built-in `default_config` is installed.  `none` stands for
"no file supplied or the path does not exist". -/
def Manager.init (source : Option (List YTok)) : Manager :=
  let base : Manager :=
    { honeypots := [], config := [], running := false, log := [] }
  match source with
  | none => { base with config := default_config }
  | some doc => base.load_config doc

/-- `HoneypotManager.create_honeypot`: if the id is already registered, log a
warning and return the existing instance; otherwise dispatch on
`honeypot_type.upper()` to the SSH or Web constructor (unknown tags log an
error and return `None`), register the new instance, and append a definition
record to the configuration if none with this id exists yet. -/
def Manager.create_honeypot (m : Manager) (honeypot_id honeypot_type ip : String)
    (port : Nat) (options : List (String × String)) :
    Manager × Option BaseHoneypot :=
  match dictGet m.honeypots honeypot_id with
  | some h =>
      ({ m with log := m.log ++
          [(LogLevel.warning,
            "Honeypot with ID " ++ honeypot_id ++ " already exists")] },
       some h)
  | none =>
      let kind? : Option HKind :=
        if pyUpper honeypot_type = "SSH" then some HKind.SSH
        else if pyUpper honeypot_type = "WEB" then some HKind.Web
        else none
      match kind? with
      | none =>
          ({ m with log := m.log ++
              [(LogLevel.error,
                "Unsupported honeypot type: " ++ honeypot_type)] },
           none)
      | some k =>
          let h : BaseHoneypot :=
            { kind := k, id := honeypot_id, ip := ip, port := port,
              options := options, status := Status.Inactive }
          let cfg :=
            if m.config.any (fun d => d.id = honeypot_id) then m.config
            else m.config ++
              [{ id := honeypot_id, type := honeypot_type, ip := ip,
                 port := port, options := options }]
          ({ m with honeypots := dictSet m.honeypots honeypot_id h,
                    config := cfg,
                    log := m.log ++
                      [(LogLevel.info,
                        "Created " ++ honeypot_type ++ " honeypot with ID " ++
                          honeypot_id)] },
           some h)

/-- `HoneypotManager.remove_honeypot`: unknown ids log a warning and return
`False`; otherwise the registry entry is deleted, every definition record with
this id is filtered out of the configuration, and `True` is returned.  (An
`Active` instance additionally gets a fire-and-forget asynchronous stop of its
handle, which does not affect the bookkeeping modelled here.) -/
def Manager.remove_honeypot (m : Manager) (honeypot_id : String) :
    Manager × Bool :=
  match dictGet m.honeypots honeypot_id with
  | none =>
      ({ m with log := m.log ++
          [(LogLevel.warning,
            "Honeypot with ID " ++ honeypot_id ++ " does not exist")] },
       false)
  | some _ =>
      ({ m with honeypots := dictDel m.honeypots honeypot_id,
                config := m.config.filter (fun d => d.id ≠ honeypot_id),
                log := m.log ++
                  [(LogLevel.info,
                    "Removed honeypot with ID " ++ honeypot_id)] },
       true)

/-- `HoneypotManager.get_honeypot`. -/
def Manager.get_honeypot (m : Manager) (honeypot_id : String) :
    Option BaseHoneypot :=
  dictGet m.honeypots honeypot_id

/-- Modelled from the spec: the decoy service's own `get_status` snapshot is
opaque to the manager; it is relayed, not interpreted, so it is represented by
the lifecycle state. -/
def BaseHoneypot.get_status (h : BaseHoneypot) : Status :=
  h.status

/-- `HoneypotManager.get_honeypot_status` without an id: one relayed snapshot
per registered instance. -/
def Manager.get_honeypot_status (m : Manager) : List (String × Status) :=
  m.honeypots.map (fun p => (p.1, p.2.get_status))

/-- Modelled from the spec: `await honeypot.start()` — the underlying bind
either succeeds, making the instance `Active`, or raises a start failure.
`beh` records, per instance id, whether the underlying start succeeds. -/
def BaseHoneypot.start (beh : String → Bool) (h : BaseHoneypot) :
    Except String BaseHoneypot :=
  if beh h.id then Except.ok { h with status := Status.Active }
  else Except.error "StartFailure"

/-- `HoneypotManager.start_honeypot`: unknown ids log a warning and return
`False`; an instance whose status is not `Active` is started (a raised start
failure is caught, logged as an error, and returned as `False`); an already
`Active` instance is left alone and `True` is returned. -/
def Manager.start_honeypot (beh : String → Bool) (m : Manager)
    (honeypot_id : String) : Manager × Bool :=
  match m.get_honeypot honeypot_id with
  | none =>
      ({ m with log := m.log ++
          [(LogLevel.warning,
            "Honeypot with ID " ++ honeypot_id ++ " does not exist")] },
       false)
  | some h =>
      if h.status ≠ Status.Active then
        match h.start beh with
        | Except.ok h' =>
            ({ m with honeypots := dictSet m.honeypots honeypot_id h',
                      log := m.log ++
                        [(LogLevel.info, "Started honeypot " ++ honeypot_id)] },
             true)
        | Except.error e =>
            ({ m with log := m.log ++
                [(LogLevel.error,
                  "Failed to start honeypot " ++ honeypot_id ++ ": " ++ e)] },
             false)
      else (m, true)

/-- First loop of `HoneypotManager.start_all`: set `running = True`, then for
every configured definition whose id has no registry entry, create the
instance via `create_honeypot`. -/
def Manager.start_all_create (m : Manager) : Manager :=
  List.foldl
    (fun acc d =>
      if (dictGet acc.honeypots d.id).isSome then acc
      else (acc.create_honeypot d.id d.type d.ip d.port d.options).1)
    { m with running := true }
    m.config

/-- Second loop of `HoneypotManager.start_all`: for every registered instance
(no status check appears in this loop) log `Starting honeypot <id>` and launch
its start; `asyncio.gather(..., return_exceptions=True)` then waits for all
launched starts, capturing failures instead of raising them, so a failed start
leaves that instance's entry unchanged. -/
def Manager.start_all_start (beh : String → Bool) (m : Manager) : Manager :=
  { m with
    honeypots := m.honeypots.map (fun p =>
      match p.2.start beh with
      | Except.ok h' => (p.1, h')
      | Except.error _ => (p.1, p.2)),
    log := m.log ++
      m.honeypots.map (fun p => (LogLevel.info, "Starting honeypot " ++ p.1)) }

/-- `HoneypotManager.start_all`: the creation loop followed by the concurrent
start fan-out/fan-in. -/
def Manager.start_all (beh : String → Bool) (m : Manager) : Manager :=
  Manager.start_all_start beh (Manager.start_all_create m)

/-- The settled outcomes gathered by `start_all`'s
`asyncio.gather(*tasks, return_exceptions=True)`: one settled result (success
or captured exception) per launched start task. -/
def Manager.start_all_results (beh : String → Bool) (m : Manager) :
    List (String × Except String Unit) :=
  (Manager.start_all_create m).honeypots.map
    (fun p => (p.1, Except.map (fun _ => ()) (p.2.start beh)))

/-- Net effect of one launched-and-settled start on its instance: `Active` on
success, unchanged when the captured failure is swallowed by the gather. -/
def startOutcome (beh : String → Bool) (h : BaseHoneypot) : BaseHoneypot :=
  match h.start beh with
  | Except.ok h' => h'
  | Except.error _ => h

/-- Decidable equality of settled start results. -/
instance {ε α : Type} [DecidableEq ε] [DecidableEq α] :
    DecidableEq (Except ε α) := fun a b =>
  match a, b with
  | Except.ok x, Except.ok y =>
      decidable_of_iff (x = y) (by rw [Except.ok.injEq])
  | Except.error x, Except.error y =>
      decidable_of_iff (x = y) (by rw [Except.error.injEq])
  | Except.ok _, Except.error _ => isFalse (fun hc => Except.noConfusion hc)
  | Except.error _, Except.ok _ => isFalse (fun hc => Except.noConfusion hc)

/-- One orchestrator operation of the create/remove fragment. -/
inductive MOp where
  | create (id type ip : String) (port : Nat) (options : List (String × String))
  | remove (id : String)
deriving Repr

/-- Apply one create/remove operation (keeping the resulting state). -/
def Manager.applyOp (m : Manager) : MOp → Manager
  | MOp.create i t ip p o => (Manager.create_honeypot m i t ip p o).1
  | MOp.remove i => (Manager.remove_honeypot m i).1

/-- Apply a sequence of create/remove operations in order. -/
def Manager.applyOps (m : Manager) (ops : List MOp) : Manager :=
  List.foldl Manager.applyOp m ops

/-- How many stored definitions carry the given id. -/
def Manager.defCount (m : Manager) (id : String) : Nat :=
  (m.config.filter (fun d => d.id = id)).length

/-- Registry/configuration consistency: registry keys are unique (a dict),
stored definition ids are unique, and every registered id has a stored
definition. -/
def Manager.GoodState (m : Manager) : Prop :=
  (m.honeypots.map Prod.fst).Nodup ∧
  (m.config.map InstanceDefinition.id).Nodup ∧
  (∀ id, (dictGet m.honeypots id).isSome = true →
    id ∈ m.config.map InstanceDefinition.id)

/-! ### Dictionary lemmas -/

theorem dictGet_dictSet {α : Type} (l : List (String × α)) (k j : String)
    (v : α) :
    dictGet (dictSet l k v) j = if k = j then some v else dictGet l j := by
  induction l with
  | nil =>
      by_cases hkj : k = j <;> simp [dictGet, dictSet, hkj]
  | cons p rest ih =>
      obtain ⟨k', v'⟩ := p
      by_cases hk : k' = k
      · subst hk
        by_cases hkj : k' = j <;> simp [dictGet, dictSet, hkj]
      · by_cases hkj : k' = j
        · subst hkj
          have : ¬k = k' := fun h => hk h.symm
          simp [dictGet, dictSet, hk, this]
        · simp [dictGet, dictSet, hk, hkj, ih]

theorem dictGet_eq_none_iff {α : Type} (l : List (String × α)) (k : String) :
    dictGet l k = none ↔ k ∉ l.map Prod.fst := by
  induction l with
  | nil => simp [dictGet]
  | cons p rest ih =>
      obtain ⟨k', v'⟩ := p
      by_cases hk : k' = k
      · subst hk
        simp [dictGet]
      · have hkk : k ≠ k' := fun h => hk h.symm
        simp [dictGet, hk, ih, hkk]

theorem dictGet_isSome_iff {α : Type} (l : List (String × α)) (k : String) :
    (dictGet l k).isSome = true ↔ k ∈ l.map Prod.fst := by
  induction l with
  | nil => simp [dictGet]
  | cons p rest ih =>
      obtain ⟨k', v'⟩ := p
      by_cases hk : k' = k
      · subst hk
        simp [dictGet]
      · have hkk : k ≠ k' := fun h => hk h.symm
        simp [dictGet, hk, ih, hkk]

theorem dictSet_of_get_none {α : Type} (l : List (String × α)) (k : String)
    (v : α) (h : dictGet l k = none) : dictSet l k v = l ++ [(k, v)] := by
  induction l with
  | nil => simp [dictSet]
  | cons p rest ih =>
      obtain ⟨k', v'⟩ := p
      by_cases hk : k' = k
      · subst hk
        simp [dictGet] at h
      · simp only [dictGet, hk, if_false, ite_false] at h ⊢
        simp [dictSet, hk, ih h]

theorem dictDel_sublist {α : Type} (l : List (String × α)) (k : String) :
    List.Sublist (dictDel l k) l := by
  induction l with
  | nil => simp [dictDel]
  | cons p rest ih =>
      obtain ⟨k', v'⟩ := p
      by_cases hk : k' = k
      · simp only [dictDel]
        rw [if_pos hk]
        exact List.sublist_cons_self (k', v') rest
      · simp only [dictDel]
        rw [if_neg hk]
        exact List.Sublist.cons₂ (k', v') ih

theorem mem_dictDel {α : Type} {l : List (String × α)} {k : String}
    {p : String × α} (h : p ∈ dictDel l k) : p ∈ l :=
  (dictDel_sublist l k).mem h

theorem dictGet_dictDel_ne {α : Type} (l : List (String × α)) (k j : String)
    (hne : j ≠ k) : dictGet (dictDel l k) j = dictGet l j := by
  induction l with
  | nil => simp [dictDel]
  | cons p rest ih =>
      obtain ⟨k', v'⟩ := p
      by_cases hk : k' = k
      · subst hk
        have : ¬k' = j := fun h => hne (h.symm)
        simp [dictDel, dictGet, this]
      · by_cases hj : k' = j
        · subst hj
          simp [dictDel, dictGet, hk]
        · simp [dictDel, dictGet, hk, hj, ih]

theorem dictGet_dictDel_self {α : Type} (l : List (String × α)) (k : String)
    (hnd : (l.map Prod.fst).Nodup) : dictGet (dictDel l k) k = none := by
  induction l with
  | nil => simp [dictDel, dictGet]
  | cons p rest ih =>
      obtain ⟨k', v'⟩ := p
      simp only [List.map_cons, List.nodup_cons] at hnd
      by_cases hk : k' = k
      · subst hk
        rw [dictGet_eq_none_iff]
        simpa [dictDel] using hnd.1
      · simp [dictDel, dictGet, hk, ih hnd.2]

theorem map_fst_dictSet_get_some {α : Type} (l : List (String × α))
    (k : String) (v : α) (h : (dictGet l k).isSome = true) :
    (dictSet l k v).map Prod.fst = l.map Prod.fst := by
  induction l with
  | nil => simp [dictGet] at h
  | cons p rest ih =>
      obtain ⟨k', v'⟩ := p
      by_cases hk : k' = k
      · subst hk
        simp [dictSet]
      · simp only [dictGet, hk, if_false, ite_false] at h
        simp [dictSet, hk, ih h]

theorem dictGet_map_value {α β : Type} (l : List (String × α))
    (f : α → β) (j : String) :
    dictGet (l.map (fun p => (p.1, f p.2))) j =
      Option.map f (dictGet l j) := by
  induction l with
  | nil => simp [dictGet]
  | cons p rest ih =>
      obtain ⟨k', v'⟩ := p
      by_cases hj : k' = j <;> simp [dictGet, hj, ih]

/-! ### Serialization round-trip lemmas -/

theorem parseOptions_dumpOptions (os : List (String × String))
    (ts : List YTok) :
    parseOptions os.length (dumpOptions os ++ ts) = some (os, ts) := by
  induction os with
  | nil => simp [dumpOptions, parseOptions]
  | cons kv rest ih =>
      obtain ⟨k, v⟩ := kv
      simp [dumpOptions, parseOptions, ih]

theorem parseDef_dumpDef (d : InstanceDefinition) (ts : List YTok) :
    parseDef (dumpDef d ++ ts) = some (d, ts) := by
  cases d
  simp [dumpDef, parseDef, parseOptions_dumpOptions]

theorem parseDefs_dumpDefs (cfg : List InstanceDefinition) (ts : List YTok) :
    parseDefs cfg.length (dumpDefs cfg ++ ts) = some (cfg, ts) := by
  induction cfg generalizing ts with
  | nil => simp [dumpDefs, parseDefs]
  | cons d rest ih =>
      simp [dumpDefs, parseDefs, List.append_assoc, parseDef_dumpDef, ih]

theorem yaml_roundtrip (cfg : List InstanceDefinition) :
    yaml_safe_load (yaml_dump cfg) = Except.ok cfg := by
  have h := parseDefs_dumpDefs cfg []
  rw [List.append_nil] at h
  simp [yaml_dump, yaml_safe_load, h]

/-! ### Fan-out normalization lemmas for `start_all` -/

theorem start_all_start_honeypots (beh : String → Bool) (m : Manager) :
    (Manager.start_all_start beh m).honeypots =
      m.honeypots.map (fun p => (p.1, startOutcome beh p.2)) := by
  show m.honeypots.map _ = _
  congr 1
  funext p
  rcases hp : p.2.start beh with e | h' <;> simp [startOutcome, hp]

theorem start_all_honeypots (beh : String → Bool) (m : Manager) :
    (Manager.start_all beh m).honeypots =
      (Manager.start_all_create m).honeypots.map
        (fun p => (p.1, startOutcome beh p.2)) := by
  rw [Manager.start_all, start_all_start_honeypots]

theorem dictGet_start_all (beh : String → Bool) (m : Manager) (j : String) :
    dictGet (Manager.start_all beh m).honeypots j =
      Option.map (startOutcome beh)
        (dictGet (Manager.start_all_create m).honeypots j) := by
  rw [start_all_honeypots, dictGet_map_value]

/-! ### Claim theorems -/

/-- Claim C6: for every ill-formed (unparsable) input document, `load_config`
fails and leaves the configuration store holding exactly the empty definition
set — never a partially-applied mixture. -/
theorem claim_C6 (m : Manager) (doc : List YTok) (e : String)
    (h : yaml_safe_load doc = Except.error e) :
    (m.load_config doc).config = [] := by
  simp [Manager.load_config, h]

theorem claim_C6_witness :
    yaml_safe_load [YTok.str "garbage"] = Except.error "ConfigParseError" ∧
    ((Manager.init none).load_config [YTok.str "garbage"]).config = [] :=
  ⟨rfl, claim_C6 (Manager.init none) [YTok.str "garbage"] "ConfigParseError" rfl⟩

/-- Claim C7, counterexample to the claim as stated: a manager constructed
over an existing but unparsable configuration source ends with the empty
definition set, not the built-in two-entry default set. -/
theorem claim_C7_counterexample :
    (Manager.init (some [YTok.str "garbage"])).config = [] ∧
    (Manager.init (some [YTok.str "garbage"])).config ≠ default_config := by
  refine ⟨rfl, ?_⟩
  decide

/-- Claim C7 as amended: when no configuration source is supplied (or the
named source does not exist) the definition set is the built-in two-entry
default set; when the source exists but its content is unparsable, the
definition set is the empty set. -/
theorem claim_C7 :
    (Manager.init none).config = default_config ∧
    ∀ (doc : List YTok) (e : String), yaml_safe_load doc = Except.error e →
      (Manager.init (some doc)).config = [] := by
  constructor
  · rfl
  · intro doc e h
    show (Manager.load_config _ doc).config = []
    simp [Manager.load_config, h]

theorem claim_C7_witness :
    (Manager.init none).config = default_config ∧
    (Manager.init (some [YTok.str "garbage"])).config = [] :=
  ⟨claim_C7.1, claim_C7.2 [YTok.str "garbage"] "ConfigParseError" rfl⟩

/-- Claim C8: saving the current definition set and loading it back
reproduces the definition set exactly — same ids, types, addresses, ports and
options (the full records, in particular independent of how the definitions
were inserted). -/
theorem claim_C8 (m : Manager) :
    (m.load_config (Manager.save_config m)).config = m.config := by
  simp [Manager.load_config, Manager.save_config, yaml_roundtrip]

/-- Claim C2, counterexample to the claim as stated: the built-in default
definition set of a freshly constructed manager has no entry with port 22 and
no entry with port 80 — the two entries carry ports 2222 and 8080. -/
theorem claim_C2_counterexample :
    (Manager.init none).config.map (fun d => (d.id, d.port)) =
      [("ssh-honeypot-1", 2222), ("web-honeypot-1", 8080)] ∧
    (¬ ∃ d ∈ (Manager.init none).config,
        d.id = "ssh-honeypot-1" ∧ d.port = 22) ∧
    (¬ ∃ d ∈ (Manager.init none).config,
        d.id = "web-honeypot-1" ∧ d.port = 80) := by
  refine ⟨rfl, ?_, ?_⟩ <;> decide

/-- Claim C2 as amended: a freshly constructed manager with no configuration
source holds exactly two definitions — id `ssh-honeypot-1` of (normalized)
type SSH on port 2222 and id `web-honeypot-1` of (normalized) type WEB on
port 8080; after `start_all` (with both underlying starts succeeding) both
instances are `Active`, and the no-argument status query returns exactly two
entries. -/
theorem claim_C2 (beh : String → Bool) (hs : beh "ssh-honeypot-1" = true)
    (hw : beh "web-honeypot-1" = true) :
    (Manager.init none).config.map (fun d => (d.id, pyUpper d.type, d.port)) =
      [("ssh-honeypot-1", "SSH", 2222), ("web-honeypot-1", "WEB", 8080)] ∧
    (∃ h, dictGet ((Manager.init none).start_all beh).honeypots
        "ssh-honeypot-1" = some h ∧ h.status = Status.Active) ∧
    (∃ h, dictGet ((Manager.init none).start_all beh).honeypots
        "web-honeypot-1" = some h ∧ h.status = Status.Active) ∧
    ((Manager.init none).start_all beh).get_honeypot_status.length = 2 := by
  have hreg : (Manager.start_all_create (Manager.init none)).honeypots =
      [("ssh-honeypot-1",
        { kind := HKind.SSH, id := "ssh-honeypot-1", ip := "0.0.0.0",
          port := 2222,
          options := [("banner", "SSH-2.0-OpenSSH_8.2p1 Ubuntu-4ubuntu0.5")],
          status := Status.Inactive }),
       ("web-honeypot-1",
        { kind := HKind.Web, id := "web-honeypot-1", ip := "0.0.0.0",
          port := 8080,
          options := [("server_type", "Apache/2.4.41 (Ubuntu)")],
          status := Status.Inactive })] := by
    decide
  refine ⟨by decide, ?_, ?_, ?_⟩
  · rw [dictGet_start_all, hreg]
    refine ⟨_, rfl, ?_⟩
    simp [dictGet, startOutcome, BaseHoneypot.start, hs]
  · rw [dictGet_start_all, hreg]
    refine ⟨_, rfl, ?_⟩
    simp [dictGet, startOutcome, BaseHoneypot.start, hw]
  · rw [Manager.get_honeypot_status, start_all_honeypots, hreg]
    simp

theorem claim_C2_witness :
    (∃ h, dictGet ((Manager.init none).start_all (fun _ => true)).honeypots
        "ssh-honeypot-1" = some h ∧ h.status = Status.Active) ∧
    (∃ h, dictGet ((Manager.init none).start_all (fun _ => true)).honeypots
        "web-honeypot-1" = some h ∧ h.status = Status.Active) ∧
    ((Manager.init none).start_all (fun _ => true)).get_honeypot_status.length
      = 2 :=
  ⟨(claim_C2 (fun _ => true) rfl rfl).2.1,
   (claim_C2 (fun _ => true) rfl rfl).2.2.1,
   (claim_C2 (fun _ => true) rfl rfl).2.2.2⟩

/-! ### Behaviour of `create_honeypot` -/

theorem create_existing (m : Manager) (hid t ip : String) (port : Nat)
    (opts : List (String × String)) (h : BaseHoneypot)
    (hget : dictGet m.honeypots hid = some h) :
    Manager.create_honeypot m hid t ip port opts =
      ({ m with log := m.log ++
          [(LogLevel.warning,
            "Honeypot with ID " ++ hid ++ " already exists")] },
       some h) := by
  unfold Manager.create_honeypot
  rw [hget]

theorem create_fresh_some (m : Manager) (hid t ip : String) (port : Nat)
    (opts : List (String × String)) (h : BaseHoneypot)
    (hfresh : dictGet m.honeypots hid = none)
    (hfirst : (Manager.create_honeypot m hid t ip port opts).2 = some h) :
    (Manager.create_honeypot m hid t ip port opts).1.honeypots =
      dictSet m.honeypots hid h := by
  unfold Manager.create_honeypot at hfirst ⊢
  rw [hfresh] at hfirst ⊢
  by_cases hssh : pyUpper t = "SSH"
  · simp only [hssh, if_true, ite_true] at hfirst ⊢
    cases hfirst
    rfl
  · by_cases hweb : pyUpper t = "WEB"
    · simp only [hssh, hweb, if_false, ite_false, if_true, ite_true]
        at hfirst ⊢
      cases hfirst
      rfl
    · simp only [hssh, hweb, if_false, ite_false] at hfirst
      exact Option.noConfusion hfirst

/-- Claim C1: creating the same id twice registers exactly one instance under
that id; the second call leaves the registry and the configuration untouched,
returns the originally created instance unchanged, and reports the situation
as a single warning log line, not an error. -/
theorem claim_C1 (m : Manager) (hid t ip : String) (port : Nat)
    (opts : List (String × String)) (h : BaseHoneypot)
    (hfresh : dictGet m.honeypots hid = none)
    (hfirst : (Manager.create_honeypot m hid t ip port opts).2 = some h) :
    ((Manager.create_honeypot m hid t ip port opts).1.create_honeypot
        hid t ip port opts).2 = some h ∧
    ((Manager.create_honeypot m hid t ip port opts).1.create_honeypot
        hid t ip port opts).1.honeypots =
      (Manager.create_honeypot m hid t ip port opts).1.honeypots ∧
    ((Manager.create_honeypot m hid t ip port opts).1.create_honeypot
        hid t ip port opts).1.config =
      (Manager.create_honeypot m hid t ip port opts).1.config ∧
    ((Manager.create_honeypot m hid t ip port opts).1.honeypots.filter
        (fun p => p.1 = hid)).length = 1 ∧
    ((Manager.create_honeypot m hid t ip port opts).1.create_honeypot
        hid t ip port opts).1.log =
      (Manager.create_honeypot m hid t ip port opts).1.log ++
        [(LogLevel.warning,
          "Honeypot with ID " ++ hid ++ " already exists")] := by
  have hhp := create_fresh_some m hid t ip port opts h hfresh hfirst
  have hget : dictGet (Manager.create_honeypot m hid t ip port opts).1.honeypots
      hid = some h := by
    rw [hhp, dictGet_dictSet, if_pos rfl]
  have hsecond := create_existing
    (Manager.create_honeypot m hid t ip port opts).1 hid t ip port opts h hget
  refine ⟨?_, ?_, ?_, ?_, ?_⟩
  · rw [hsecond]
  · rw [hsecond]
  · rw [hsecond]
  · rw [hhp, dictSet_of_get_none _ _ _ hfresh, List.filter_append]
    have hmem : hid ∉ m.honeypots.map Prod.fst :=
      (dictGet_eq_none_iff m.honeypots hid).mp hfresh
    have hnil : m.honeypots.filter (fun p => decide (p.1 = hid)) = [] := by
      rw [List.filter_eq_nil_iff]
      intro p hp
      simp only [decide_eq_true_eq]
      intro hpe
      exact hmem (hpe ▸ List.mem_map_of_mem Prod.fst hp)
    rw [hnil]
    simp
  · rw [hsecond]

theorem claim_C1_witness :
    (((Manager.init none).create_honeypot "x" "ssh" "0.0.0.0" 1234
        []).1.create_honeypot "x" "ssh" "0.0.0.0" 1234 []).2 =
      some { kind := HKind.SSH, id := "x", ip := "0.0.0.0", port := 1234,
             options := [], status := Status.Inactive } ∧
    (((Manager.init none).create_honeypot "x" "ssh" "0.0.0.0" 1234
        []).1.honeypots.filter (fun p => p.1 = "x")).length = 1 := by
  have H := claim_C1 (Manager.init none) "x" "ssh" "0.0.0.0" 1234 []
    { kind := HKind.SSH, id := "x", ip := "0.0.0.0", port := 1234,
      options := [], status := Status.Inactive }
    (by decide) (by decide)
  exact ⟨H.1, H.2.2.2.1⟩

/-- Claim C10: the type tag of `create_honeypot` is matched after
upper-casing — any tag whose upper-casing is `SSH` constructs an SSH decoy,
any tag whose upper-casing is `WEB` constructs a Web decoy, and any other tag
is rejected with a null result, leaving the registry unchanged. -/
theorem claim_C10 (m : Manager) (hid t ip : String) (port : Nat)
    (opts : List (String × String))
    (hfresh : dictGet m.honeypots hid = none) :
    (pyUpper t = "SSH" →
      (Manager.create_honeypot m hid t ip port opts).2 =
        some { kind := HKind.SSH, id := hid, ip := ip, port := port,
               options := opts, status := Status.Inactive }) ∧
    (pyUpper t = "WEB" →
      (Manager.create_honeypot m hid t ip port opts).2 =
        some { kind := HKind.Web, id := hid, ip := ip, port := port,
               options := opts, status := Status.Inactive }) ∧
    (pyUpper t ≠ "SSH" → pyUpper t ≠ "WEB" →
      (Manager.create_honeypot m hid t ip port opts).2 = none ∧
      (Manager.create_honeypot m hid t ip port opts).1.honeypots =
        m.honeypots) := by
  unfold Manager.create_honeypot
  rw [hfresh]
  refine ⟨?_, ?_, ?_⟩
  · intro hssh
    rw [if_pos hssh]
  · intro hweb
    have hssh : ¬pyUpper t = "SSH" := by
      rw [hweb]
      decide
    rw [if_neg hssh, if_pos hweb]
  · intro hssh hweb
    rw [if_neg hssh, if_neg hweb]
    exact ⟨rfl, rfl⟩

theorem claim_C10_witness :
    ((Manager.init none).create_honeypot "x" "Ssh" "0.0.0.0" 1234 []).2 =
      some { kind := HKind.SSH, id := "x", ip := "0.0.0.0", port := 1234,
             options := [], status := Status.Inactive } ∧
    ((Manager.init none).create_honeypot "y" "wEb" "0.0.0.0" 1234 []).2 =
      some { kind := HKind.Web, id := "y", ip := "0.0.0.0", port := 1234,
             options := [], status := Status.Inactive } ∧
    ((Manager.init none).create_honeypot "z" "tcp" "0.0.0.0" 1234 []).2 =
      none ∧
    ((Manager.init none).create_honeypot "z" "tcp" "0.0.0.0" 1234
        []).1.honeypots = (Manager.init none).honeypots := by
  have Hssh := claim_C10 (Manager.init none) "x" "Ssh" "0.0.0.0" 1234 []
    (by decide)
  have Hweb := claim_C10 (Manager.init none) "y" "wEb" "0.0.0.0" 1234 []
    (by decide)
  have Hbad := claim_C10 (Manager.init none) "z" "tcp" "0.0.0.0" 1234 []
    (by decide)
  exact ⟨Hssh.1 (by decide), Hweb.2.1 (by decide),
    (Hbad.2.2 (by decide) (by decide)).1, (Hbad.2.2 (by decide) (by decide)).2⟩

/-- Claim C5: `start_honeypot` is a no-op returning `true` when the instance
is already `Active`; returns `false` (with a warning log entry, nothing
raised) when the id is unknown; otherwise starts the instance, transitions it
to `Active` and returns `true`; a raised start failure is caught and surfaced
as `false` (with an error log entry), never propagated. -/
theorem claim_C5 (beh : String → Bool) (m : Manager) (hid : String) :
    (Manager.get_honeypot m hid = none →
      (Manager.start_honeypot beh m hid).2 = false ∧
      (Manager.start_honeypot beh m hid).1.honeypots = m.honeypots ∧
      (Manager.start_honeypot beh m hid).1.log =
        m.log ++ [(LogLevel.warning,
          "Honeypot with ID " ++ hid ++ " does not exist")]) ∧
    (∀ h, Manager.get_honeypot m hid = some h → h.status = Status.Active →
      Manager.start_honeypot beh m hid = (m, true)) ∧
    (∀ h, Manager.get_honeypot m hid = some h → h.status ≠ Status.Active →
      beh h.id = true →
      (Manager.start_honeypot beh m hid).2 = true ∧
      Manager.get_honeypot (Manager.start_honeypot beh m hid).1 hid =
        some { h with status := Status.Active }) ∧
    (∀ h, Manager.get_honeypot m hid = some h → h.status ≠ Status.Active →
      beh h.id = false →
      (Manager.start_honeypot beh m hid).2 = false ∧
      (Manager.start_honeypot beh m hid).1.honeypots = m.honeypots ∧
      (Manager.start_honeypot beh m hid).1.log =
        m.log ++ [(LogLevel.error,
          "Failed to start honeypot " ++ hid ++ ": " ++ "StartFailure")]) := by
  refine ⟨?_, ?_, ?_, ?_⟩
  · intro hnone
    unfold Manager.start_honeypot
    rw [hnone]
    exact ⟨rfl, rfl, rfl⟩
  · intro h hsome hact
    unfold Manager.start_honeypot
    simp only [hsome]
    rw [if_neg (fun hne => hne hact)]
  · intro h hsome hne hbt
    have hstart : h.start beh = Except.ok { h with status := Status.Active } := by
      unfold BaseHoneypot.start
      rw [if_pos hbt]
    unfold Manager.start_honeypot
    simp only [hsome]
    rw [if_pos hne, hstart]
    refine ⟨rfl, ?_⟩
    show dictGet (dictSet m.honeypots hid _) hid = _
    rw [dictGet_dictSet, if_pos rfl]
  · intro h hsome hne hbf
    have hstart : h.start beh = Except.error "StartFailure" := by
      unfold BaseHoneypot.start
      rw [if_neg (by rw [hbf]; exact Bool.false_ne_true)]
    unfold Manager.start_honeypot
    simp only [hsome]
    rw [if_pos hne, hstart]
    exact ⟨rfl, rfl, rfl⟩

theorem claim_C5_witness :
    ((Manager.start_honeypot (fun _ => true) (Manager.init none) "nope").2 =
      false) ∧
    ((Manager.start_honeypot (fun _ => true)
        ((Manager.init none).create_honeypot "a" "SSH" "0.0.0.0" 1 []).1
        "a").2 = true) ∧
    (Manager.get_honeypot
        (Manager.start_honeypot (fun _ => true)
          ((Manager.init none).create_honeypot "a" "SSH" "0.0.0.0" 1 []).1
          "a").1 "a" =
      some { kind := HKind.SSH, id := "a", ip := "0.0.0.0", port := 1,
             options := [], status := Status.Active }) ∧
    (Manager.start_honeypot (fun _ => true)
        (Manager.start_honeypot (fun _ => true)
          ((Manager.init none).create_honeypot "a" "SSH" "0.0.0.0" 1 []).1
          "a").1 "a" =
      ((Manager.start_honeypot (fun _ => true)
          ((Manager.init none).create_honeypot "a" "SSH" "0.0.0.0" 1 []).1
          "a").1, true)) ∧
    ((Manager.start_honeypot (fun _ => false)
        ((Manager.init none).create_honeypot "a" "SSH" "0.0.0.0" 1 []).1
        "a").2 = false) := by
  have Hnone := (claim_C5 (fun _ => true) (Manager.init none) "nope").1
    (by decide)
  have Hgo := (claim_C5 (fun _ => true)
      ((Manager.init none).create_honeypot "a" "SSH" "0.0.0.0" 1 []).1
      "a").2.2.1
    { kind := HKind.SSH, id := "a", ip := "0.0.0.0", port := 1,
      options := [], status := Status.Inactive }
    (by decide) (by decide) rfl
  have Hnoop := (claim_C5 (fun _ => true)
      (Manager.start_honeypot (fun _ => true)
        ((Manager.init none).create_honeypot "a" "SSH" "0.0.0.0" 1 []).1
        "a").1 "a").2.1
    { kind := HKind.SSH, id := "a", ip := "0.0.0.0", port := 1,
      options := [], status := Status.Active }
    (by decide) (by decide)
  have Hfail := (claim_C5 (fun _ => false)
      ((Manager.init none).create_honeypot "a" "SSH" "0.0.0.0" 1 []).1
      "a").2.2.2
    { kind := HKind.SSH, id := "a", ip := "0.0.0.0", port := 1,
      options := [], status := Status.Inactive }
    (by decide) (by decide) rfl
  exact ⟨Hnone.1, Hgo.1, Hgo.2, Hnoop, Hfail.1⟩

/-! ### Coverage of the creation loop of `start_all` -/

theorem create_preserves_registered (m : Manager) (hid t ip : String)
    (port : Nat) (opts : List (String × String)) (j : String)
    (hj : (dictGet m.honeypots j).isSome = true) :
    (dictGet (Manager.create_honeypot m hid t ip port opts).1.honeypots
      j).isSome = true := by
  unfold Manager.create_honeypot
  rcases hg : dictGet m.honeypots hid with _ | h
  · by_cases hssh : pyUpper t = "SSH"
    · rw [if_pos hssh]
      show (dictGet (dictSet m.honeypots hid _) j).isSome = true
      rw [dictGet_dictSet]
      by_cases hje : hid = j
      · rw [if_pos hje]
        rfl
      · rw [if_neg hje]
        exact hj
    · by_cases hweb : pyUpper t = "WEB"
      · rw [if_neg hssh, if_pos hweb]
        show (dictGet (dictSet m.honeypots hid _) j).isSome = true
        rw [dictGet_dictSet]
        by_cases hje : hid = j
        · rw [if_pos hje]
          rfl
        · rw [if_neg hje]
          exact hj
      · rw [if_neg hssh, if_neg hweb]
        exact hj
  · exact hj

theorem create_supported_registers (m : Manager) (hid t ip : String)
    (port : Nat) (opts : List (String × String))
    (hsupp : pyUpper t = "SSH" ∨ pyUpper t = "WEB") :
    (dictGet (Manager.create_honeypot m hid t ip port opts).1.honeypots
      hid).isSome = true := by
  unfold Manager.create_honeypot
  rcases hg : dictGet m.honeypots hid with _ | h
  · rcases hsupp with hssh | hweb
    · rw [if_pos hssh]
      show (dictGet (dictSet m.honeypots hid _) hid).isSome = true
      rw [dictGet_dictSet, if_pos rfl]
      rfl
    · have hssh : ¬pyUpper t = "SSH" := by
        rw [hweb]
        decide
      rw [if_neg hssh, if_pos hweb]
      show (dictGet (dictSet m.honeypots hid _) hid).isSome = true
      rw [dictGet_dictSet, if_pos rfl]
      rfl
  · rw [hg]
    rfl

theorem foldl_create_preserves (ds : List InstanceDefinition) :
    ∀ (acc : Manager) (j : String), (dictGet acc.honeypots j).isSome = true →
      (dictGet (List.foldl
          (fun acc d =>
            if (dictGet acc.honeypots d.id).isSome then acc
            else (Manager.create_honeypot acc d.id d.type d.ip d.port
              d.options).1)
          acc ds).honeypots j).isSome = true := by
  induction ds with
  | nil =>
      intro acc j hj
      simpa using hj
  | cons d rest ih =>
      intro acc j hj
      rw [List.foldl_cons]
      apply ih
      by_cases hd : (dictGet acc.honeypots d.id).isSome = true
      · rw [if_pos hd]
        exact hj
      · rw [if_neg hd]
        exact create_preserves_registered _ _ _ _ _ _ _ hj

theorem foldl_create_covers (ds : List InstanceDefinition) :
    ∀ (acc : Manager) (d : InstanceDefinition), d ∈ ds →
      (pyUpper d.type = "SSH" ∨ pyUpper d.type = "WEB") →
      (dictGet (List.foldl
          (fun acc d =>
            if (dictGet acc.honeypots d.id).isSome then acc
            else (Manager.create_honeypot acc d.id d.type d.ip d.port
              d.options).1)
          acc ds).honeypots d.id).isSome = true := by
  induction ds with
  | nil =>
      intro acc d hd
      simp at hd
  | cons d0 rest ih =>
      intro acc d hd hsupp
      rw [List.foldl_cons]
      rcases List.mem_cons.mp hd with rfl | hmem
      · apply foldl_create_preserves
        by_cases h0 : (dictGet acc.honeypots d.id).isSome = true
        · rw [if_pos h0]
          exact h0
        · rw [if_neg h0]
          exact create_supported_registers _ _ _ _ _ _ hsupp
      · exact ih _ d hmem hsupp

/-- Claim C3, counterexample to the claim as stated: after a first
`start_all` both default instances are `Active`; a second `start_all`
nevertheless issues (and settles) a start command for the already-`Active`
`ssh-honeypot-1` — its launch is observable both as a settled gather result
and as a second `Starting honeypot` log line. -/
theorem claim_C3_counterexample :
    Option.map BaseHoneypot.status
        (dictGet ((Manager.init none).start_all (fun _ => true)).honeypots
          "ssh-honeypot-1") = some Status.Active ∧
    dictGet (Manager.start_all_results (fun _ => false)
        ((Manager.init none).start_all (fun _ => true))) "ssh-honeypot-1" =
      some (Except.error "StartFailure") ∧
    (((Manager.init none).start_all (fun _ => true)).start_all
          (fun _ => false)).log.count
        (LogLevel.info, "Starting honeypot " ++ "ssh-honeypot-1") = 2 := by
  refine ⟨?_, ?_, ?_⟩ <;> decide

/-- Claim C3 as amended: `start_all` first creates an instance for every
stored definition (of a supported type) that has no live instance, and then
issues a start command to every registered instance regardless of its
lifecycle state — already-`Active` instances are issued a start again. -/
theorem claim_C3 (m : Manager) (beh : String → Bool) :
    (∀ d ∈ m.config, (pyUpper d.type = "SSH" ∨ pyUpper d.type = "WEB") →
      (dictGet (Manager.start_all beh m).honeypots d.id).isSome = true) ∧
    (Manager.start_all beh m).log =
      (Manager.start_all_create m).log ++
        (Manager.start_all_create m).honeypots.map
          (fun p => (LogLevel.info, "Starting honeypot " ++ p.1)) ∧
    (Manager.start_all_results beh m).map Prod.fst =
      (Manager.start_all_create m).honeypots.map Prod.fst := by
  refine ⟨?_, rfl, ?_⟩
  · intro d hd hsupp
    have hcov : (dictGet (Manager.start_all_create m).honeypots
        d.id).isSome = true :=
      foldl_create_covers m.config { m with running := true } d hd hsupp
    rw [dictGet_start_all]
    rcases hg : dictGet (Manager.start_all_create m).honeypots d.id with _ | h
    · rw [hg] at hcov
      exact absurd hcov (by decide)
    · rfl
  · unfold Manager.start_all_results
    rw [List.map_map]
    rfl

theorem claim_C3_witness :
    (dictGet ((Manager.init none).start_all (fun _ => true)).honeypots
      "ssh-honeypot-1").isSome = true := by
  have H := (claim_C3 (Manager.init none) (fun _ => true)).1
    { id := "ssh-honeypot-1", type := "SSH", ip := "0.0.0.0", port := 2222,
      options := [("banner", "SSH-2.0-OpenSSH_8.2p1 Ubuntu-4ubuntu0.5")] }
    (by decide) (by decide)
  exact H

/-- Claim C4: within `start_all`, each launched start settles independently —
an instance's final registry entry and settled result depend only on its own
start behaviour, so one instance's raised start failure cannot prevent or
abort a sibling's start; moreover every launched start settles (one gathered
result per registered instance) and the registry keeps an entry for every
instance no matter which starts fail, with nothing raised to the caller. -/
theorem claim_C4 (m : Manager) (beh beh' : String → Bool) (j : String)
    (h : BaseHoneypot)
    (hreg : dictGet (Manager.start_all_create m).honeypots j = some h)
    (hagree : beh h.id = beh' h.id) :
    dictGet (Manager.start_all beh m).honeypots j =
      dictGet (Manager.start_all beh' m).honeypots j ∧
    dictGet (Manager.start_all_results beh m) j =
      dictGet (Manager.start_all_results beh' m) j ∧
    (Manager.start_all_results beh m).map Prod.fst =
      (Manager.start_all_create m).honeypots.map Prod.fst ∧
    (Manager.start_all beh m).honeypots.map Prod.fst =
      (Manager.start_all_create m).honeypots.map Prod.fst := by
  have hout : startOutcome beh h = startOutcome beh' h := by
    unfold startOutcome BaseHoneypot.start
    rw [hagree]
  have hres : Except.map (fun _ => ()) (h.start beh) =
      Except.map (fun _ => ()) (h.start beh') := by
    unfold BaseHoneypot.start
    rw [hagree]
  refine ⟨?_, ?_, ?_, ?_⟩
  · rw [dictGet_start_all, dictGet_start_all, hreg]
    show some (startOutcome beh h) = some (startOutcome beh' h)
    rw [hout]
  · unfold Manager.start_all_results
    rw [dictGet_map_value (Manager.start_all_create m).honeypots
        (fun hh => Except.map (fun _ => ()) (BaseHoneypot.start beh hh)) j,
      dictGet_map_value (Manager.start_all_create m).honeypots
        (fun hh => Except.map (fun _ => ()) (BaseHoneypot.start beh' hh)) j,
      hreg]
    show some (Except.map (fun _ => ()) (h.start beh)) =
      some (Except.map (fun _ => ()) (h.start beh'))
    rw [hres]
  · unfold Manager.start_all_results
    rw [List.map_map]
    rfl
  · rw [start_all_honeypots, List.map_map]
    rfl

theorem claim_C4_witness :
    dictGet (Manager.start_all (fun _ => true) (Manager.init none)).honeypots
        "ssh-honeypot-1" =
      dictGet (Manager.start_all (fun s => decide (s = "ssh-honeypot-1"))
        (Manager.init none)).honeypots "ssh-honeypot-1" ∧
    dictGet (Manager.start_all_results (fun _ => true) (Manager.init none))
        "ssh-honeypot-1" =
      dictGet (Manager.start_all_results
        (fun s => decide (s = "ssh-honeypot-1")) (Manager.init none))
        "ssh-honeypot-1" ∧
    (Manager.start_all_results (fun s => decide (s = "ssh-honeypot-1"))
        (Manager.init none)).map Prod.fst =
      (Manager.start_all_create (Manager.init none)).honeypots.map
        Prod.fst := by
  have H := claim_C4 (Manager.init none) (fun _ => true)
    (fun s => decide (s = "ssh-honeypot-1")) "ssh-honeypot-1"
    { kind := HKind.SSH, id := "ssh-honeypot-1", ip := "0.0.0.0", port := 2222,
      options := [("banner", "SSH-2.0-OpenSSH_8.2p1 Ubuntu-4ubuntu0.5")],
      status := Status.Inactive }
    (by decide) (by decide)
  have H' := claim_C4 (Manager.init none)
    (fun s => decide (s = "ssh-honeypot-1")) (fun _ => true) "ssh-honeypot-1"
    { kind := HKind.SSH, id := "ssh-honeypot-1", ip := "0.0.0.0", port := 2222,
      options := [("banner", "SSH-2.0-OpenSSH_8.2p1 Ubuntu-4ubuntu0.5")],
      status := Status.Inactive }
    (by decide) (by decide)
  exact ⟨H.1, H.2.1, H'.2.2.1⟩

/-! ### Registry/configuration consistency under create/remove -/

theorem filter_id_length_one (l : List InstanceDefinition)
    (hnd : (l.map InstanceDefinition.id).Nodup) (id : String)
    (hm : id ∈ l.map InstanceDefinition.id) :
    (l.filter (fun d => d.id = id)).length = 1 := by
  induction l with
  | nil => simp at hm
  | cons d rest ih =>
      simp only [List.map_cons, List.nodup_cons] at hnd
      rcases List.mem_cons.mp hm with heq | hm'
      · have hd : d.id = id := heq.symm
        have hrest : rest.filter (fun x => decide (x.id = id)) = [] := by
          rw [List.filter_eq_nil_iff]
          intro x hx
          simp only [decide_eq_true_eq]
          intro hxe
          have hxm := List.mem_map_of_mem InstanceDefinition.id hx
          rw [hxe, ← hd] at hxm
          exact hnd.1 hxm
        simp [List.filter_cons, hd, hrest]
      · have hd : ¬d.id = id := by
          intro hdi
          rw [← hdi] at hm'
          exact hnd.1 hm'
        simp [List.filter_cons, hd, ih hnd.2 hm']

theorem GoodState_insert (m : Manager) (hid : String) (hX : BaseHoneypot)
    (defX : InstanceDefinition) (run : Bool) (lg : List (LogLevel × String))
    (hdef : defX.id = hid)
    (hfresh : dictGet m.honeypots hid = none) (hG : Manager.GoodState m) :
    Manager.GoodState
      { honeypots := dictSet m.honeypots hid hX,
        config := if m.config.any (fun d => d.id = hid) then m.config
          else m.config ++ [defX],
        running := run, log := lg } := by
  obtain ⟨hndH, hndC, hcov⟩ := hG
  have hmemH : hid ∉ m.honeypots.map Prod.fst :=
    (dictGet_eq_none_iff _ _).mp hfresh
  refine ⟨?_, ?_, ?_⟩
  · show ((dictSet m.honeypots hid hX).map Prod.fst).Nodup
    rw [dictSet_of_get_none _ _ _ hfresh, List.map_append]
    simp [List.nodup_append, hndH, hmemH]
  · show ((if m.config.any (fun d => d.id = hid) then m.config
        else m.config ++ [defX]).map InstanceDefinition.id).Nodup
    by_cases hany : m.config.any (fun d => decide (d.id = hid)) = true
    · rw [if_pos hany]
      exact hndC
    · rw [if_neg hany, List.map_append]
      have hnc : hid ∉ m.config.map InstanceDefinition.id := by
        intro hmem
        rcases List.mem_map.mp hmem with ⟨d, hd, hdid⟩
        exact hany (List.any_eq_true.mpr ⟨d, hd, decide_eq_true hdid⟩)
      simp [List.nodup_append, hndC, hnc, hdef]
  · intro id hsome
    show id ∈ (if m.config.any (fun d => d.id = hid) then m.config
        else m.config ++ [defX]).map InstanceDefinition.id
    replace hsome : (if hid = id then some hX
        else dictGet m.honeypots id).isSome = true := by
      rw [← dictGet_dictSet m.honeypots hid id hX]
      exact hsome
    by_cases hidid : hid = id
    · subst hidid
      by_cases hany : m.config.any (fun d => decide (d.id = hid)) = true
      · rw [if_pos hany]
        rcases List.any_eq_true.mp hany with ⟨d, hd, hdid⟩
        exact List.mem_map.mpr ⟨d, hd, of_decide_eq_true hdid⟩
      · rw [if_neg hany, List.map_append]
        apply List.mem_append_right
        simp [hdef]
    · rw [if_neg hidid] at hsome
      have hin := hcov id hsome
      by_cases hany : m.config.any (fun d => decide (d.id = hid)) = true
      · rw [if_pos hany]
        exact hin
      · rw [if_neg hany, List.map_append]
        exact List.mem_append_left _ hin

theorem create_preserves_GoodState (m : Manager) (hid t ip : String)
    (port : Nat) (opts : List (String × String))
    (hG : Manager.GoodState m) :
    Manager.GoodState (Manager.create_honeypot m hid t ip port opts).1 := by
  unfold Manager.create_honeypot
  rcases hg : dictGet m.honeypots hid with _ | h
  · by_cases hssh : pyUpper t = "SSH"
    · rw [if_pos hssh]
      exact GoodState_insert m hid _ _ m.running _ rfl hg hG
    · by_cases hweb : pyUpper t = "WEB"
      · rw [if_neg hssh, if_pos hweb]
        exact GoodState_insert m hid _ _ m.running _ rfl hg hG
      · rw [if_neg hssh, if_neg hweb]
        exact hG
  · exact hG

theorem remove_preserves_GoodState (m : Manager) (hid : String)
    (hG : Manager.GoodState m) :
    Manager.GoodState (Manager.remove_honeypot m hid).1 := by
  obtain ⟨hndH, hndC, hcov⟩ := hG
  unfold Manager.remove_honeypot
  rcases hg : dictGet m.honeypots hid with _ | h
  · exact ⟨hndH, hndC, hcov⟩
  · refine ⟨?_, ?_, ?_⟩
    · show ((dictDel m.honeypots hid).map Prod.fst).Nodup
      exact List.Nodup.sublist ((dictDel_sublist m.honeypots hid).map Prod.fst)
        hndH
    · show ((m.config.filter (fun d => d.id ≠ hid)).map
          InstanceDefinition.id).Nodup
      exact List.Nodup.sublist ((m.config.filter_sublist).map
        InstanceDefinition.id) hndC
    · intro id hsome
      show id ∈ (m.config.filter (fun d => d.id ≠ hid)).map
        InstanceDefinition.id
      replace hsome : (dictGet (dictDel m.honeypots hid) id).isSome = true :=
        hsome
      by_cases hidid : id = hid
      · subst hidid
        rw [dictGet_dictDel_self _ _ hndH] at hsome
        exact Bool.noConfusion hsome
      · rw [dictGet_dictDel_ne _ _ _ hidid] at hsome
        have hin := hcov id hsome
        rcases List.mem_map.mp hin with ⟨d, hd, hdid⟩
        refine List.mem_map.mpr ⟨d, List.mem_filter.mpr ⟨hd, ?_⟩, hdid⟩
        exact decide_eq_true (fun hc => hidid (hdid ▸ hc))

theorem init_GoodState : Manager.GoodState (Manager.init none) := by
  refine ⟨List.nodup_nil, by decide, ?_⟩
  intro id hsome
  exact Bool.noConfusion hsome

theorem applyOp_GoodState (m : Manager) (op : MOp)
    (hG : Manager.GoodState m) : Manager.GoodState (Manager.applyOp m op) := by
  cases op with
  | create i t ip p o => exact create_preserves_GoodState m i t ip p o hG
  | remove i => exact remove_preserves_GoodState m i hG

theorem applyOps_GoodState (ops : List MOp) :
    ∀ m : Manager, Manager.GoodState m →
      Manager.GoodState (Manager.applyOps m ops) := by
  induction ops with
  | nil =>
      intro m hG
      exact hG
  | cons op rest ih =>
      intro m hG
      exact ih _ (applyOp_GoodState m op hG)

/-- Claim C9: after any sequence of create/remove operations starting from a
fresh orchestrator, every registered decoy instance has exactly one stored
definition with its id (while stored definitions without a live instance are
allowed — the fresh orchestrator itself holds two such definitions). -/
theorem claim_C9 (ops : List MOp) (p : String × BaseHoneypot)
    (hp : p ∈ ((Manager.init none).applyOps ops).honeypots) :
    Manager.defCount ((Manager.init none).applyOps ops) p.1 = 1 := by
  have hG := applyOps_GoodState ops (Manager.init none) init_GoodState
  have hk : p.1 ∈ ((Manager.init none).applyOps ops).honeypots.map Prod.fst :=
    List.mem_map_of_mem Prod.fst hp
  have hs : (dictGet ((Manager.init none).applyOps ops).honeypots
      p.1).isSome = true :=
    (dictGet_isSome_iff _ _).mpr hk
  exact filter_id_length_one _ hG.2.1 _ (hG.2.2 _ hs)

theorem claim_C9_witness :
    Manager.defCount
      ((Manager.init none).applyOps
        [MOp.create "x" "SSH" "0.0.0.0" 1 [], MOp.remove "nope"]) "x" = 1 := by
  have H := claim_C9 [MOp.create "x" "SSH" "0.0.0.0" 1 [], MOp.remove "nope"]
    ("x", { kind := HKind.SSH, id := "x", ip := "0.0.0.0", port := 1,
            options := [], status := Status.Inactive })
    (by decide)
  exact H

end Honeypots
